import Mathlib

/-!
Verification of the slack-monitor repository's core monitoring engine
(package monitor: monitor.go) and notification service
(package notification) against its natural-language specification.

The Go source is shallowly embedded: Slack timestamp markers (strings of
the form "1234567890.123456", ordered numerically) are modelled as
rationals; the watermark map (Go map[string]string) is a function from
channel id to an optional marker; the external collaborators reached
through the SlackClient, Notifier and StateStore interfaces are modelled
as pure oracles supplied as parameters; fallible calls return Except.
Wall-clock reads (time.Now()) are supplied as explicit rational
parameters at each point the source calls them.
-/

namespace SlackMonitor

/-- Slack timestamp marker, numerically ordered ("1234567890.123456"). -/
abbrev Ts := ℚ

/-- Message from monitor.go: Timestamp, User, Text, Type fields. -/
structure Message where
  timestamp : Ts
  user : String
  text : String
  type : String
deriving DecidableEq

/-- Conversation from monitor.go: channel ID and counterpart user ID. -/
structure Conversation where
  id : String
  user : String
deriving DecidableEq

/-- User from monitor.go: ID, Name, RealName. -/
structure User where
  id : String
  name : String
  realName : String
deriving DecidableEq

/-- The State.LastChecked map (channel_id to timestamp marker). -/
abbrev LastChecked := String → Option Ts

/-- Pointwise update of the watermark map, modelling the Go map write
state.LastChecked[id] = v. -/
def update (s : LastChecked) (k : String) (v : Ts) : LastChecked :=
  fun k' => if k' = k then some v else s k'

/-- formatTimestamp from monitor.go: Sprintf("%.6f", float64(t.Unix())).
Go's t.Unix() truncates the wall-clock instant to whole seconds, so the
produced marker is the floor of the instant; the fixed 6-decimal zero
padding does not change the numeric value. -/
def formatTimestamp (t : ℚ) : Ts := (⌊t⌋ : ℚ)

/-- Byte length of a Go string (len(s)); characters stand in for bytes. -/
def strLen (s : String) : ℕ := s.data.length

/-- Go string slicing s[:n]. -/
def strTake (s : String) (n : ℕ) : String := ⟨s.data.take n⟩

/-- formatNotification from monitor.go: truncate the message text to
maxLength = 500 with a trailing "..." and prepend "DM from {name}: ". -/
def formatNotification (userName messageText : String) : String :=
  let maxLength : ℕ := 500
  let t := if strLen messageText > maxLength
    then strTake messageText (maxLength - 3) ++ "..."
    else messageText
  "DM from " ++ userName ++ ": " ++ t

/-- Outcome of the HTTP POST to ntfy.sh inside SendNotification, as seen
by the caller: request construction failed, transport failed, or a
response with the given status code arrived. -/
inductive HTTPOutcome where
  | createErr
  | transportErr
  | status (code : ℕ)
deriving DecidableEq

/-- Mutable state of notification.Service: the lastNotify rate-limit
timestamp (time.Time, in seconds). -/
structure NtfyState where
  lastNotify : ℚ
deriving DecidableEq

/-- Result of one SendNotification call: whether an error was returned,
whether the request was actually transmitted to ntfy.sh, and the
service state after the call. -/
structure SendOut where
  err : Bool
  transmitted : Bool
  state : NtfyState
deriving DecidableEq

/-- rateLimitSeconds from notification/service.go. -/
def rateLimitSeconds : ℚ := 2

/-- SendNotification from notification/service.go. The parameter now is
the wall clock at the time.Since(s.lastNotify) read; now2 is the wall
clock at the final time.Now() assignment. The HTTP layer's behaviour is
the outcome oracle. -/
def SendNotification (st : NtfyState) (now now2 : ℚ) (outcome : HTTPOutcome) : SendOut :=
  if now - st.lastNotify < rateLimitSeconds then
    { err := false, transmitted := false, state := st }
  else
    match outcome with
    | .createErr => { err := true, transmitted := false, state := st }
    | .transportErr => { err := true, transmitted := false, state := st }
    | .status code =>
      if code ≠ 200 then { err := true, transmitted := true, state := st }
      else { err := false, transmitted := true, state := { lastNotify := now2 } }

/-- The SlackClient interface of monitor.go as a pure oracle: the fetch,
user-resolution and conversation-listing calls answer deterministically,
errors included, and the authenticated user ID is fixed (Run resolves it
once via TestAuth before the loop starts). -/
structure SlackEnv where
  getConversationHistory : String → Ts → Except Unit (List Message)
  getAuthenticatedUserID : String
  getUserInfo : String → Except Unit User
  getDMConversations : Except Unit (List Conversation)

/-- The skip condition of checkConversation's message loop:
msg.User == "" || msg.Type != "message" || msg.User == authenticated. -/
def skipMsg (authID : String) (msg : Message) : Bool :=
  msg.user == "" || msg.type != "message" || msg.user == authID

/-- Display-name selection of checkConversation: user.RealName, falling
back to user.Name when RealName is empty. -/
def displayNameOf (u : User) : String :=
  if u.realName = "" then u.name else u.realName

/-- The GetUserInfo call plus its fallback in checkConversation: on
error the code substitutes User{Name: msg.User}. -/
def resolveName (env : SlackEnv) (uid : String) : String :=
  match env.getUserInfo uid with
  | .ok u => displayNameOf u
  | .error _ => displayNameOf { id := "", name := uid, realName := "" }

/-- Observable output of checkConversation's per-message loop: the
watermark map after the loop, the notification texts passed to the
Notifier in dispatch order, the user IDs for which GetUserInfo was
called, and the marker values written to the map inside the loop. -/
structure LoopOut where
  state : LastChecked
  notifs : List String
  resolved : List String
  writes : List Ts
deriving Inhabited

/-- The per-message loop of checkConversation, already applied to the
reversed (oldest-first) message list. Skipped messages cause no
resolution, no notification and no watermark write; processed messages
resolve the sender, emit a notification and write their timestamp. -/
def processMessages (env : SlackEnv) (cid : String) : List Message → LastChecked → LoopOut
  | [], s => ⟨s, [], [], []⟩
  | msg :: rest, s =>
    if skipMsg env.getAuthenticatedUserID msg then
      processMessages env cid rest s
    else
      let out := processMessages env cid rest (update s cid msg.timestamp)
      ⟨out.state,
       formatNotification (resolveName env msg.user) msg.text :: out.notifs,
       msg.user :: out.resolved,
       msg.timestamp :: out.writes⟩

/-- Watermark resolution at the top of checkConversation: look up the
channel; when absent, compute formatTimestamp(time.Now()) and record it
in the map before the fetch. Returns the marker used for the fetch and
the (possibly updated) map. -/
def resolveWatermark (now1 : ℚ) (cid : String) (s : LastChecked) : Ts × LastChecked :=
  match s cid with
  | some m => (m, s)
  | none => (formatTimestamp now1, update s cid (formatTimestamp now1))

/-- Result of one checkConversation call: the returned error flag, the
watermark map afterwards, and the loop observables. -/
structure CheckResult where
  err : Bool
  state : LastChecked
  notifs : List String
  resolved : List String
  writes : List Ts
deriving Inhabited

/-- checkConversation from monitor.go. now1 is the wall clock at the
missing-watermark resolution; now2 is the wall clock at the final
no-new-messages advance (the source calls time.Now() separately at each
point). On fetch error the function returns the error with the map as
left by the resolution step. After the loop, when no message was
processed (newCount == 0) the marker is set to formatTimestamp(now2)
unconditionally. -/
def checkConversation (env : SlackEnv) (now1 now2 : ℚ) (conv : Conversation)
    (s : LastChecked) : CheckResult :=
  let res := resolveWatermark now1 conv.id s
  match env.getConversationHistory conv.id res.1 with
  | .error _ => ⟨true, res.2, [], [], []⟩
  | .ok messages =>
    let out := processMessages env conv.id messages.reverse res.2
    let finalState :=
      if out.writes.length = 0 then update out.state conv.id (formatTimestamp now2)
      else out.state
    ⟨false, finalState, out.notifs, out.resolved, out.writes⟩

/-- Observable output of the per-conversation loop inside
checkAllConversations: the watermark map, the dispatched notifications,
and whether the loop took the ctx.Done branch (returning early). -/
structure SweepOut where
  state : LastChecked
  notifs : List String
  cancelledEarly : Bool
deriving Inhabited

/-- The per-conversation loop of checkAllConversations. Before each
conversation the code polls ctx.Done (the cancelled oracle, indexed by
position); on cancellation it returns nil immediately. A failing
checkConversation is logged and skipped (continue), its map mutations
kept. The nows oracle supplies the two time.Now() reads of each
checkConversation call. -/
def checkConvsLoop (env : SlackEnv) (cancelled : ℕ → Bool) (nows : ℕ → ℚ × ℚ) :
    List Conversation → ℕ → LastChecked → SweepOut
  | [], _, s => ⟨s, [], false⟩
  | conv :: rest, i, s =>
    if cancelled i then ⟨s, [], true⟩
    else
      let r := checkConversation env (nows i).1 (nows i).2 conv s
      let out := checkConvsLoop env cancelled nows rest (i + 1) r.state
      ⟨out.state, r.notifs ++ out.notifs, out.cancelledEarly⟩

/-- Result of one checkAllConversations call: the returned error flag,
the in-memory map afterwards, the argument passed to stateStore.Save
(none when Save was never called), and the dispatched notifications. -/
structure SweepResult where
  err : Bool
  state : LastChecked
  savedArg : Option LastChecked
  notifs : List String

/-- checkAllConversations from monitor.go: list conversations (error
aborts the sweep), run the per-conversation loop, and then - only when
the loop ran to completion rather than returning on ctx.Done - call
stateStore.Save on the full map, whose failure is returned. saveOk
models the Save call's outcome. -/
def checkAllConversations (env : SlackEnv) (cancelled : ℕ → Bool) (nows : ℕ → ℚ × ℚ)
    (saveOk : Bool) (s : LastChecked) : SweepResult :=
  match env.getDMConversations with
  | .error _ => ⟨true, s, none, []⟩
  | .ok convs =>
    let out := checkConvsLoop env cancelled nows convs 0 s
    if out.cancelledEarly then ⟨false, out.state, none, out.notifs⟩
    else if saveOk then ⟨false, out.state, some out.state, out.notifs⟩
    else ⟨true, out.state, some out.state, out.notifs⟩

/-- Timing skeleton of the Run loop in monitor.go, as the list of
(sweep start, sweep end) instants it produces. Each iteration first
polls ctx.Done (the cancelled oracle, indexed by iteration), then runs
the sweep - iteration n takes d n time - and then waits the poll
interval P via time.After before the next iteration, so the wait is
measured from the end of the sweep. The fuel bounds the number of
iterations observed. -/
def runTrace (P : ℚ) (d : ℕ → ℚ) (cancelled : ℕ → Bool) :
    ℕ → ℕ → ℚ → List (ℚ × ℚ)
  | 0, _, _ => []
  | fuel + 1, n, t =>
    if cancelled n then []
    else (t, t + d n) :: runTrace P d cancelled fuel (n + 1) (t + d n + P)

/-- Messages that survive the skip test, in processing order. -/
def passing (authID : String) (l : List Message) : List Message :=
  l.filter (fun m => !(skipMsg authID m))

/-- The Chat Source precondition on the history fetch: messages returned
for a marker all carry timestamps strictly greater than that marker
(conversations.history with the oldest parameter set). -/
def FetchPre (env : SlackEnv) : Prop :=
  ∀ cid m msgs, env.getConversationHistory cid m = .ok msgs →
    ∀ x ∈ msgs, m < x.timestamp

/-- Concrete Chat Source whose history fetch always returns no
messages. -/
def envEmptyFetch : SlackEnv :=
  { getConversationHistory := fun _ _ => .ok []
    getAuthenticatedUserID := "U1"
    getUserInfo := fun _ => .error ()
    getDMConversations := .ok [] }

/-- Watermark map holding marker 50 for conversation D1. -/
def sD1_50 : LastChecked := fun cid => if cid = "D1" then some 50 else none

/-- Cancellation oracle that never fires. -/
def noCancel : ℕ → Bool := fun _ => false

/-- Cancellation oracle firing from conversation index 1 on. -/
def cancelAt1 : ℕ → Bool := fun i => decide (1 ≤ i)

/-- Wall-clock oracle returning 0 for every conversation slot. -/
def nowsZero : ℕ → ℚ × ℚ := fun _ => (0, 0)

/-- Wall-clock oracle returning 200 for every conversation slot. -/
def nows200 : ℕ → ℚ × ℚ := fun _ => (200, 200)

/-- Empty watermark map (fresh state). -/
def sEmpty : LastChecked := fun _ => none

/-- Fetched message list for the filter table: one ordinary message from
another user, one own message, one with empty sender, one join event
(newest first, as the API returns them). -/
def msgsC5 : List Message :=
  [⟨14, "U2", "d", "channel_join"⟩, ⟨13, "", "c", "message"⟩,
   ⟨12, "U1", "b", "message"⟩, ⟨11, "U2", "a", "message"⟩]

/-- Concrete Chat Source for the filter table: authenticated as U1,
conversation D5 with marker 10 returns msgsC5, U2 resolves to Ann. -/
def envC5 : SlackEnv :=
  { getConversationHistory := fun cid mk =>
      if cid = "D5" ∧ mk = 10 then .ok msgsC5 else .ok []
    getAuthenticatedUserID := "U1"
    getUserInfo := fun uid =>
      if uid = "U2" then .ok ⟨"U2", "u2", "Ann"⟩ else .error ()
    getDMConversations := .ok [] }

/-- Watermark map holding marker 10 for conversation D5. -/
def sC5 : LastChecked := fun cid => if cid = "D5" then some 10 else none

/-- Fetched message list of the reference end-to-end scenario, newest
first: timestamps 105 then 103, both from U2. -/
def msgsC6 : List Message :=
  [⟨105, "U2", "hi", "message"⟩, ⟨103, "U2", "yo", "message"⟩]

/-- Concrete Chat Source for the end-to-end scenario: authenticated as
U1, conversation D1 with marker 100 returns msgsC6, U2 resolves to the
real name Bob. -/
def envC6 : SlackEnv :=
  { getConversationHistory := fun cid mk =>
      if cid = "D1" ∧ mk = 100 then .ok msgsC6 else .ok []
    getAuthenticatedUserID := "U1"
    getUserInfo := fun uid =>
      if uid = "U2" then .ok ⟨"U2", "u2", "Bob"⟩ else .error ()
    getDMConversations := .ok [⟨"D1", "U2"⟩] }

/-- Watermark map holding marker 100 for conversation D1. -/
def sC6 : LastChecked := fun cid => if cid = "D1" then some 100 else none

/-- Concrete Chat Source whose history fetch always fails. -/
def envC7 : SlackEnv :=
  { getConversationHistory := fun _ _ => .error ()
    getAuthenticatedUserID := "U1"
    getUserInfo := fun _ => .error ()
    getDMConversations := .ok [] }

/-- Watermark map holding marker 50 for conversation D7. -/
def sC7 : LastChecked := fun cid => if cid = "D7" then some 50 else none

/-- Concrete Chat Source listing two conversations D1 and D2, with an
always-empty history fetch. -/
def envC2 : SlackEnv :=
  { getConversationHistory := fun _ _ => .ok []
    getAuthenticatedUserID := "U1"
    getUserInfo := fun _ => .error ()
    getDMConversations := .ok [⟨"D1", "U2"⟩, ⟨"D2", "U3"⟩] }

/-- Watermark map holding markers 100 for D1 and 110 for D2. -/
def sC2 : LastChecked := fun cid =>
  if cid = "D1" then some 100 else if cid = "D2" then some 110 else none

/-- One checkConversation invocation inside a sequence of sweeps: the
Chat Source oracle of that moment, the two wall-clock reads, and the
conversation being processed. -/
structure CallEnv where
  env : SlackEnv
  now1 : ℚ
  now2 : ℚ
  conv : Conversation

/-- Watermark-map transformation of one checkConversation call. -/
def callStep (c : CallEnv) (s : LastChecked) : LastChecked :=
  (checkConversation c.env c.now1 c.now2 c.conv s).state

/-- Watermark map after a sequence of checkConversation calls. -/
def runCalls : List CallEnv → LastChecked → LastChecked
  | [], s => s
  | c :: cs, s => runCalls cs (callStep c s)

/-- Clock-sanity condition along a call sequence, for conversation C:
whenever a call processes C, the truncated wall clock of its second
time.Now() read is at least C's marker at that point. This holds in a
real execution whenever the clock is monotone and the sweep runs at
least one full second after the marker was written. -/
def ClockOK (C : String) : List CallEnv → LastChecked → Prop
  | [], _ => True
  | c :: cs, s =>
    (c.conv.id = C → ∀ m, s C = some m → m ≤ formatTimestamp c.now2) ∧
    ClockOK C cs (callStep c s)

/-- Order on optional markers: an absent marker is below everything; a
present marker must stay present and not decrease. -/
def MarkerLe : Option Ts → Option Ts → Prop
  | none, _ => True
  | some _, none => False
  | some a, some b => a ≤ b

/-- Chat Source returning, for any conversation, one ordinary message
from U2 with the fractional timestamp 100.5 when fetched from marker 90,
and nothing from any other marker. -/
def envC3a : SlackEnv :=
  { getConversationHistory := fun _ mk =>
      if mk = 90 then .ok [⟨201/2, "U2", "hi", "message"⟩] else .ok []
    getAuthenticatedUserID := "U1"
    getUserInfo := fun _ => .error ()
    getDMConversations := .ok [] }

/-- Watermark map holding marker 90 for conversation D1. -/
def sD1_90 : LastChecked := fun cid => if cid = "D1" then some 90 else none

/-- Two-sweep call sequence on D1: the first sweep picks up the message
at 100.5; the second sweep, at wall clock 100.9, finds nothing new. -/
def callsC3cex : List CallEnv :=
  [⟨envC3a, 0, 0, ⟨"D1", "U2"⟩⟩,
   ⟨envEmptyFetch, 1009/10, 1009/10, ⟨"D1", "U2"⟩⟩]

/-- Two-sweep call sequence on D1 satisfying the clock-sanity side
condition: sweeps at wall clocks 95 and 200. -/
def callsC3wit : List CallEnv :=
  [⟨envC3a, 95, 95, ⟨"D1", "U2"⟩⟩,
   ⟨envEmptyFetch, 200, 200, ⟨"D1", "U2"⟩⟩]

/-- Sweep-duration oracle: every sweep takes 1 second. -/
def dOne : ℕ → ℚ := fun _ => 1

theorem processMessages_notifs (env : SlackEnv) (cid : String) (l : List Message)
    (s : LastChecked) :
    (processMessages env cid l s).notifs =
      (passing env.getAuthenticatedUserID l).map
        (fun m => formatNotification (resolveName env m.user) m.text) := by
  induction l generalizing s with
  | nil => rfl
  | cons msg rest ih =>
    by_cases h : skipMsg env.getAuthenticatedUserID msg
    · simp [processMessages, passing, h, List.filter_cons] at *
      exact ih _
    · simp only [Bool.not_eq_true] at h
      simp [processMessages, passing, h, List.filter_cons] at *
      exact ih _

theorem processMessages_resolved (env : SlackEnv) (cid : String) (l : List Message)
    (s : LastChecked) :
    (processMessages env cid l s).resolved =
      (passing env.getAuthenticatedUserID l).map (fun m => m.user) := by
  induction l generalizing s with
  | nil => rfl
  | cons msg rest ih =>
    by_cases h : skipMsg env.getAuthenticatedUserID msg
    · simp [processMessages, passing, h, List.filter_cons] at *
      exact ih _
    · simp only [Bool.not_eq_true] at h
      simp [processMessages, passing, h, List.filter_cons] at *
      exact ih _

theorem processMessages_writes (env : SlackEnv) (cid : String) (l : List Message)
    (s : LastChecked) :
    (processMessages env cid l s).writes =
      (passing env.getAuthenticatedUserID l).map (fun m => m.timestamp) := by
  induction l generalizing s with
  | nil => rfl
  | cons msg rest ih =>
    by_cases h : skipMsg env.getAuthenticatedUserID msg
    · simp [processMessages, passing, h, List.filter_cons] at *
      exact ih _
    · simp only [Bool.not_eq_true] at h
      simp [processMessages, passing, h, List.filter_cons] at *
      exact ih _

theorem processMessages_state (env : SlackEnv) (cid : String) (l : List Message)
    (s : LastChecked) :
    (processMessages env cid l s).state =
      (passing env.getAuthenticatedUserID l).foldl
        (fun t m => update t cid m.timestamp) s := by
  induction l generalizing s with
  | nil => rfl
  | cons msg rest ih =>
    by_cases h : skipMsg env.getAuthenticatedUserID msg
    · simp [processMessages, passing, h, List.filter_cons] at *
      exact ih _
    · simp only [Bool.not_eq_true] at h
      simp [processMessages, passing, h, List.filter_cons] at *
      exact ih _

theorem foldl_update_apply_ne (cid k : String) (hk : k ≠ cid) (l : List Message)
    (s : LastChecked) :
    (l.foldl (fun t m => update t cid m.timestamp) s) k = s k := by
  induction l generalizing s with
  | nil => rfl
  | cons msg rest ih =>
    simp only [List.foldl_cons]
    rw [ih]
    simp [update, hk]

theorem foldl_update_apply_last (cid : String) (l : List Message) (s : LastChecked) :
    (l.foldl (fun t m => update t cid m.timestamp) s) cid =
      match l.getLast? with
      | none => s cid
      | some m => some m.timestamp := by
  induction l generalizing s with
  | nil => rfl
  | cons msg rest ih =>
    cases rest with
    | nil => simp [update]
    | cons m2 rest2 =>
      have h := ih (update s cid msg.timestamp)
      simp only [List.foldl_cons] at h ⊢
      rw [h, List.getLast?_cons_cons]
      cases hg : (m2 :: rest2).getLast? with
      | none => simp at hg
      | some m => simp [hg]

theorem resolveWatermark_some (now1 : ℚ) (cid : String) (s : LastChecked) (m : Ts)
    (hs : s cid = some m) : resolveWatermark now1 cid s = (m, s) := by
  simp [resolveWatermark, hs]

theorem resolveWatermark_none (now1 : ℚ) (cid : String) (s : LastChecked)
    (hs : s cid = none) :
    resolveWatermark now1 cid s =
      (formatTimestamp now1, update s cid (formatTimestamp now1)) := by
  simp [resolveWatermark, hs]

theorem resolveWatermark_apply_ne (now1 : ℚ) (cid k : String) (hk : k ≠ cid)
    (s : LastChecked) : (resolveWatermark now1 cid s).2 k = s k := by
  cases hs : s cid with
  | some m => simp [resolveWatermark, hs]
  | none => simp [resolveWatermark, hs, update, hk]

theorem checkConversation_fetch_err (env : SlackEnv) (now1 now2 : ℚ)
    (conv : Conversation) (s : LastChecked) (e : Unit)
    (hf : env.getConversationHistory conv.id (resolveWatermark now1 conv.id s).1 =
      .error e) :
    checkConversation env now1 now2 conv s =
      ⟨true, (resolveWatermark now1 conv.id s).2, [], [], []⟩ := by
  simp [checkConversation, hf]

theorem checkConversation_fetch_ok (env : SlackEnv) (now1 now2 : ℚ)
    (conv : Conversation) (s : LastChecked) (msgs : List Message)
    (hf : env.getConversationHistory conv.id (resolveWatermark now1 conv.id s).1 =
      .ok msgs) :
    checkConversation env now1 now2 conv s =
      { err := false
        state :=
          if passing env.getAuthenticatedUserID msgs.reverse = [] then
            update ((resolveWatermark now1 conv.id s).2) conv.id (formatTimestamp now2)
          else
            (passing env.getAuthenticatedUserID msgs.reverse).foldl
              (fun t m => update t conv.id m.timestamp)
              ((resolveWatermark now1 conv.id s).2)
        notifs := (passing env.getAuthenticatedUserID msgs.reverse).map
          (fun m => formatNotification (resolveName env m.user) m.text)
        resolved := (passing env.getAuthenticatedUserID msgs.reverse).map
          (fun m => m.user)
        writes := (passing env.getAuthenticatedUserID msgs.reverse).map
          (fun m => m.timestamp) } := by
  simp only [checkConversation, hf]
  rw [processMessages_notifs, processMessages_resolved, processMessages_writes,
    processMessages_state]
  by_cases hp : passing env.getAuthenticatedUserID msgs.reverse = []
  · simp [hp]
  · have : ((passing env.getAuthenticatedUserID msgs.reverse).map
        (fun m => m.timestamp)).length ≠ 0 := by
      simp only [List.length_map, ne_eq, List.length_eq_zero]
      exact hp
    simp only [this, if_neg, hp]
    simp [processMessages_state, hp, List.length_map, List.length_eq_zero]

theorem checkConversation_frame (env : SlackEnv) (now1 now2 : ℚ)
    (conv : Conversation) (s : LastChecked) (k : String) (hk : k ≠ conv.id) :
    (checkConversation env now1 now2 conv s).state k = s k := by
  cases hf : env.getConversationHistory conv.id (resolveWatermark now1 conv.id s).1 with
  | error e =>
    rw [checkConversation_fetch_err env now1 now2 conv s e hf]
    exact resolveWatermark_apply_ne now1 conv.id k hk s
  | ok msgs =>
    rw [checkConversation_fetch_ok env now1 now2 conv s msgs hf]
    by_cases hp : passing env.getAuthenticatedUserID msgs.reverse = []
    · simp only [hp, if_pos]
      rw [update]
      simp only [if_neg hk]
      exact resolveWatermark_apply_ne now1 conv.id k hk s
    · rw [if_neg hp]
      dsimp only
      rw [foldl_update_apply_ne conv.id k hk]
      exact resolveWatermark_apply_ne now1 conv.id k hk s

theorem checkConversation_ok_apply_cid (env : SlackEnv) (now1 now2 : ℚ)
    (conv : Conversation) (s : LastChecked) (msgs : List Message)
    (hf : env.getConversationHistory conv.id (resolveWatermark now1 conv.id s).1 =
      .ok msgs) :
    (checkConversation env now1 now2 conv s).state conv.id =
      match (passing env.getAuthenticatedUserID msgs.reverse).getLast? with
      | none => some (formatTimestamp now2)
      | some m => some m.timestamp := by
  rw [checkConversation_fetch_ok env now1 now2 conv s msgs hf]
  by_cases hp : passing env.getAuthenticatedUserID msgs.reverse = []
  · simp [hp, update]
  · rw [if_neg hp]
    dsimp only
    rw [foldl_update_apply_last]
    cases hg : (passing env.getAuthenticatedUserID msgs.reverse).getLast? with
    | none =>
      rw [List.getLast?_eq_none_iff] at hg
      exact absurd hg hp
    | some m => simp

/-- C9: for every display name and body, formatNotification returns
"DM from {name}: {body}" unchanged (empty body included) whenever the
body's length is at most 500, and when the body's length exceeds 500 it
returns the prefix followed by exactly the first 497 characters of the
body plus "...", so the part after the prefix is exactly 500 characters
and ends in "...". -/
theorem formatNotification_truncation_law (userName messageText : String) :
    (strLen messageText ≤ 500 →
      formatNotification userName messageText =
        "DM from " ++ userName ++ ": " ++ messageText) ∧
    (strLen messageText > 500 →
      formatNotification userName messageText =
        "DM from " ++ userName ++ ": " ++ (strTake messageText 497 ++ "...") ∧
      strLen (strTake messageText 497 ++ "...") = 500 ∧
      List.IsSuffix ("...".data) ((strTake messageText 497 ++ "...").data)) := by
  constructor
  · intro h
    simp [formatNotification, Nat.not_lt.mpr h]
  · intro h
    refine ⟨?_, ?_, ?_⟩
    · simp [formatNotification, h]
    · simp only [strLen, strTake, String.data_append, List.length_append,
        List.length_take]
      have h3 : ("..." : String).data.length = 3 := by decide
      rw [h3]
      simp only [strLen] at h
      omega
    · exact ⟨(strTake messageText 497).data, (String.data_append _ _).symm⟩

/-- Witness for C9 at concrete inputs: a short body is reproduced
verbatim, and a 501-character body truncates to a 500-character tail. -/
theorem formatNotification_truncation_law_witness :
    (strLen "hi" ≤ 500 ∧ formatNotification "X" "hi" = "DM from X: hi") ∧
    (strLen (⟨List.replicate 501 'a'⟩ : String) > 500 ∧
      strLen (strTake (⟨List.replicate 501 'a'⟩ : String) 497 ++ "...") = 500) := by
  have hlong : strLen (⟨List.replicate 501 'a'⟩ : String) > 500 := by
    simp only [strLen, List.length_replicate]
    norm_num
  refine ⟨⟨by decide, ?_⟩, hlong,
    ((formatNotification_truncation_law "X" ⟨List.replicate 501 'a'⟩).2 hlong).2.1⟩
  rw [(formatNotification_truncation_law "X" "hi").1 (by decide)]
  rfl

/-- C10: lastNotify advances only on successful delivery. A call dropped
by the 2-second rate limiter returns success without transmitting and
leaves the state unchanged, every error return (request creation,
transport, non-200 status) leaves the state unchanged, and any state
change means the call was not rate limited, the HTTP status was 200, the
call returned success, and lastNotify became the current time. -/
theorem sendNotification_lastNotify_frame (st : NtfyState) (now now2 : ℚ)
    (outcome : HTTPOutcome) :
    ((SendNotification st now now2 outcome).state ≠ st →
      (¬(now - st.lastNotify < rateLimitSeconds) ∧
        outcome = HTTPOutcome.status 200 ∧
        (SendNotification st now now2 outcome).err = false ∧
        (SendNotification st now now2 outcome).state = ⟨now2⟩)) ∧
    (now - st.lastNotify < rateLimitSeconds →
      SendNotification st now now2 outcome =
        { err := false, transmitted := false, state := st }) ∧
    ((SendNotification st now now2 outcome).err = true →
      (SendNotification st now now2 outcome).state = st) := by
  by_cases hr : now - st.lastNotify < rateLimitSeconds
  · simp [SendNotification, hr]
  · cases outcome with
    | createErr => simp [SendNotification, hr]
    | transportErr => simp [SendNotification, hr]
    | status code =>
      by_cases hc : code = 200
      · subst hc
        simp [SendNotification, hr]
      · simp [SendNotification, hr, hc]

/-- Witness for C10: a concrete rate-limited call is dropped whole, and
a concrete non-200 response leaves lastNotify unchanged. -/
theorem sendNotification_lastNotify_frame_witness :
    ((1 : ℚ) - (0 : ℚ) < rateLimitSeconds ∧
      SendNotification ⟨0⟩ 1 5 HTTPOutcome.createErr =
        { err := false, transmitted := false, state := ⟨0⟩ }) ∧
    ((SendNotification ⟨0⟩ 9 5 (HTTPOutcome.status 503)).err = true ∧
      (SendNotification ⟨0⟩ 9 5 (HTTPOutcome.status 503)).state = ⟨0⟩) := by
  have hrl : (1 : ℚ) - (0 : ℚ) < rateLimitSeconds := by
    norm_num [rateLimitSeconds]
  have herr : (SendNotification ⟨0⟩ 9 5 (HTTPOutcome.status 503)).err = true := by
    norm_num [SendNotification, rateLimitSeconds]
  exact ⟨⟨hrl, (sendNotification_lastNotify_frame ⟨0⟩ 1 5 HTTPOutcome.createErr).2.1 hrl⟩,
    herr,
    (sendNotification_lastNotify_frame ⟨0⟩ 9 5 (HTTPOutcome.status 503)).2.2 herr⟩

/-- C5: in checkConversation's per-message loop a fetched message is
skipped (no user resolution, no notification, no watermark write for
that message) if and only if its sender is empty, or its kind is not
"message", or its sender equals the authenticated user; the loop's
resolution calls, notifications and watermark writes are exactly the
per-message data of the messages satisfying none of the three skip
conditions. In particular a message whose sender equals the
authenticated identity is never in that list, so it never produces a
notification, regardless of kind or content. -/
theorem message_filter_iff (env : SlackEnv) (now1 now2 : ℚ) (conv : Conversation)
    (s : LastChecked) (m : Ts) (msgs : List Message)
    (hs : s conv.id = some m)
    (hf : env.getConversationHistory conv.id m = .ok msgs) :
    (checkConversation env now1 now2 conv s).resolved =
      (passing env.getAuthenticatedUserID msgs.reverse).map (fun x => x.user) ∧
    (checkConversation env now1 now2 conv s).notifs =
      (passing env.getAuthenticatedUserID msgs.reverse).map
        (fun x => formatNotification (resolveName env x.user) x.text) ∧
    (checkConversation env now1 now2 conv s).writes =
      (passing env.getAuthenticatedUserID msgs.reverse).map (fun x => x.timestamp) ∧
    (∀ x : Message, x ∈ passing env.getAuthenticatedUserID msgs.reverse ↔
      (x ∈ msgs ∧ ¬(x.user = "" ∨ x.type ≠ "message" ∨
        x.user = env.getAuthenticatedUserID))) := by
  have hrw := resolveWatermark_some now1 conv.id s m hs
  have hf' : env.getConversationHistory conv.id
      (resolveWatermark now1 conv.id s).1 = .ok msgs := by rw [hrw]; exact hf
  rw [checkConversation_fetch_ok env now1 now2 conv s msgs hf']
  refine ⟨rfl, rfl, rfl, ?_⟩
  intro x
  simp only [passing, List.mem_filter, List.mem_reverse, skipMsg,
    Bool.not_eq_true', Bool.or_eq_false_iff, beq_eq_false_iff_ne, ne_eq,
    bne_eq_false_iff_eq, not_or, not_not]
  tauto

/-- Witness for C5 at the four-row filter table: only the ordinary
message from the other user is resolved, notified and written. -/
theorem message_filter_iff_witness :
    sC5 "D5" = some 10 ∧
    envC5.getConversationHistory "D5" 10 = .ok msgsC5 ∧
    (checkConversation envC5 0 0 ⟨"D5", "U2"⟩ sC5).resolved = ["U2"] ∧
    (checkConversation envC5 0 0 ⟨"D5", "U2"⟩ sC5).notifs = ["DM from Ann: a"] ∧
    (checkConversation envC5 0 0 ⟨"D5", "U2"⟩ sC5).writes = [11] := by
  have hs : sC5 "D5" = some 10 := by rfl
  have hf : envC5.getConversationHistory "D5" 10 = .ok msgsC5 := by
    simp [envC5]
  have h := message_filter_iff envC5 0 0 ⟨"D5", "U2"⟩ sC5 10 msgsC5 hs hf
  refine ⟨hs, hf, ?_, ?_, ?_⟩
  · rw [h.1]; rfl
  · rw [h.2.1]; rfl
  · rw [h.2.2.1]; rfl

/-- C6: for a conversation with an existing marker whose fetch succeeds,
checkConversation processes the newest-first message list in reverse:
the notifications dispatched are exactly the filtered messages of the
reversed (oldest-first) list in that order, and when at least one
message passes the filter the stored watermark afterwards equals the
timestamp of the last-processed (newest) passing message. -/
theorem chronological_processing (env : SlackEnv) (now1 now2 : ℚ)
    (conv : Conversation) (s : LastChecked) (m : Ts) (msgs : List Message)
    (hs : s conv.id = some m)
    (hf : env.getConversationHistory conv.id m = .ok msgs) :
    (checkConversation env now1 now2 conv s).notifs =
      (passing env.getAuthenticatedUserID msgs.reverse).map
        (fun x => formatNotification (resolveName env x.user) x.text) ∧
    (∀ last : Message,
      (passing env.getAuthenticatedUserID msgs.reverse).getLast? = some last →
      (checkConversation env now1 now2 conv s).state conv.id =
        some last.timestamp) := by
  have hrw := resolveWatermark_some now1 conv.id s m hs
  have hf' : env.getConversationHistory conv.id
      (resolveWatermark now1 conv.id s).1 = .ok msgs := by rw [hrw]; exact hf
  constructor
  · rw [checkConversation_fetch_ok env now1 now2 conv s msgs hf']
  · intro last hlast
    rw [checkConversation_ok_apply_cid env now1 now2 conv s msgs hf', hlast]

/-- Witness for C6, the reference end-to-end scenario: conversation D1
with watermark 100 and fetch [105 hi, 103 yo] (newest first) dispatches
the two notifications oldest-first as DM from Bob: yo then DM from Bob:
hi, and the final watermark for D1 is 105. -/
theorem chronological_processing_witness :
    sC6 "D1" = some 100 ∧
    envC6.getConversationHistory "D1" 100 = .ok msgsC6 ∧
    (checkConversation envC6 0 0 ⟨"D1", "U2"⟩ sC6).notifs =
      ["DM from Bob: yo", "DM from Bob: hi"] ∧
    (checkConversation envC6 0 0 ⟨"D1", "U2"⟩ sC6).state "D1" = some 105 := by
  have hs : sC6 "D1" = some 100 := by rfl
  have hf : envC6.getConversationHistory "D1" 100 = .ok msgsC6 := by
    simp [envC6]
  have h := chronological_processing envC6 0 0 ⟨"D1", "U2"⟩ sC6 100 msgsC6 hs hf
  refine ⟨hs, hf, ?_, ?_⟩
  · rw [h.1]; rfl
  · exact h.2 ⟨105, "U2", "hi", "message"⟩ (by rfl)

/-- C7: for a conversation that already has a watermark entry, a failing
history fetch makes checkConversation return the error with the entire
watermark map unchanged (so the next sweep retries the same window) and
no notifications, and the per-conversation loop of
checkAllConversations continues with the remaining conversations from
the same state. -/
theorem fetch_failure_atomic (env : SlackEnv) (cancelled : ℕ → Bool)
    (nows : ℕ → ℚ × ℚ) (now1 now2 : ℚ) (conv : Conversation)
    (rest : List Conversation) (i : ℕ) (s : LastChecked) (m : Ts)
    (hs : s conv.id = some m)
    (hf : env.getConversationHistory conv.id m = .error ()) :
    (checkConversation env now1 now2 conv s).err = true ∧
    (checkConversation env now1 now2 conv s).state = s ∧
    (checkConversation env now1 now2 conv s).notifs = [] ∧
    (cancelled i = false →
      checkConvsLoop env cancelled nows (conv :: rest) i s =
        checkConvsLoop env cancelled nows rest (i + 1) s) := by
  have key : ∀ a b : ℚ, checkConversation env a b conv s = ⟨true, s, [], [], []⟩ := by
    intro a b
    have hrw := resolveWatermark_some a conv.id s m hs
    have hf' : env.getConversationHistory conv.id
        (resolveWatermark a conv.id s).1 = .error () := by rw [hrw]; exact hf
    rw [checkConversation_fetch_err env a b conv s () hf', hrw]
  refine ⟨by rw [key], by rw [key], by rw [key], ?_⟩
  intro hc
  simp only [checkConvsLoop, hc, Bool.false_eq_true, if_false, key]
  simp

/-- Witness for C7: conversation D7 with marker 50 against a Chat Source
whose fetch always fails; the map and the loop are untouched. -/
theorem fetch_failure_atomic_witness :
    sC7 "D7" = some 50 ∧
    (checkConversation envC7 0 0 ⟨"D7", "U1"⟩ sC7).err = true ∧
    (checkConversation envC7 0 0 ⟨"D7", "U1"⟩ sC7).state = sC7 ∧
    checkConvsLoop envC7 noCancel nowsZero [⟨"D7", "U1"⟩] 0 sC7 =
      checkConvsLoop envC7 noCancel nowsZero [] 1 sC7 := by
  have h := fetch_failure_atomic envC7 noCancel nowsZero 0 0 ⟨"D7", "U1"⟩ [] 0 sC7 50
    (by rfl) (by rfl)
  exact ⟨by rfl, h.1, h.2.1, h.2.2.2 (by rfl)⟩

/-- C8 counterexample: the claimed iff fails on checkConversation. For a
conversation first seen in this call, with no fetched message passing
the filter, the stored marker does not remain at the value recorded by
the resolution step: the resolution (at wall clock 100) records marker
100, yet the no-new-messages branch overwrites it with the second wall
clock read (101), because monitor.go performs the advance-to-now write
whenever newCount is zero, without the prior-watermark condition. -/
theorem advance_now_conditional_cex :
    resolveWatermark 100 "D1" sEmpty = (100, update sEmpty "D1" 100) ∧
    (checkConversation envEmptyFetch 100 101 ⟨"D1", "U2"⟩ sEmpty).writes = [] ∧
    (checkConversation envEmptyFetch 100 101 ⟨"D1", "U2"⟩ sEmpty).state "D1" =
      some 101 ∧
    some (101 : ℚ) ≠ some (100 : ℚ) := by
  refine ⟨by rfl, by rfl, by rfl, by norm_num⟩

/-- C8 amended: whenever no fetched message passes the filter, the
conversation's watermark is advanced to the current wall-clock time
unconditionally - both when the conversation already had a watermark
entry and when it was first seen in this call (where the advance
overwrites the marker recorded by the resolution step). -/
theorem advance_now_unconditional (env : SlackEnv) (now1 now2 : ℚ)
    (conv : Conversation) (s : LastChecked) (msgs : List Message)
    (hf : env.getConversationHistory conv.id (resolveWatermark now1 conv.id s).1 =
      .ok msgs)
    (hp : passing env.getAuthenticatedUserID msgs.reverse = []) :
    (checkConversation env now1 now2 conv s).state conv.id =
      some (formatTimestamp now2) := by
  rw [checkConversation_ok_apply_cid env now1 now2 conv s msgs hf]
  rw [hp]
  rfl

/-- Witness for C8 amended: a conversation with prior marker 50 and an
empty fetch ends at marker 60, the second wall-clock read. -/
theorem advance_now_unconditional_witness :
    sD1_50 "D1" = some 50 ∧
    (checkConversation envEmptyFetch 0 60 ⟨"D1", "U2"⟩ sD1_50).state "D1" =
      some 60 := by
  have h := advance_now_unconditional envEmptyFetch 0 60 ⟨"D1", "U2"⟩ sD1_50 []
    (by rfl) (by rfl)
  exact ⟨by rfl, by rw [h]; rfl⟩

/-- C4 counterexample: the final clause of the claim fails at sub-second
resolution. A first-contact sweep starting at wall clock 100.5 (all
time.Now() reads equal to 100.5) against a source with no messages
resolves the marker through formatTimestamp, which truncates to whole
seconds (t.Unix()), and leaves the stored marker at 100, which is not
greater than or equal to the sweep's start time 100.5; the fetch
precondition holds and zero notifications are produced, so only the
marker clause is violated. -/
theorem first_contact_marker_cex :
    FetchPre envEmptyFetch ∧
    sEmpty "D1" = none ∧
    (checkConversation envEmptyFetch (201/2) (201/2) ⟨"D1", "U2"⟩ sEmpty).notifs =
      [] ∧
    (checkConversation envEmptyFetch (201/2) (201/2) ⟨"D1", "U2"⟩ sEmpty).state
      "D1" = some 100 ∧
    ¬((100 : ℚ) ≥ (201/2 : ℚ)) := by
  have hpre : FetchPre envEmptyFetch := by
    intro cid m msgs h x hx
    cases h
    cases hx
  have h100 : formatTimestamp (201/2 : ℚ) = 100 := by
    norm_num [formatTimestamp]
  have hf' : envEmptyFetch.getConversationHistory "D1"
      (resolveWatermark (201/2) "D1" sEmpty).1 = .ok [] := by rfl
  have hstate := checkConversation_ok_apply_cid envEmptyFetch (201/2) (201/2)
    ⟨"D1", "U2"⟩ sEmpty [] hf'
  refine ⟨hpre, rfl, ?_, ?_, by norm_num⟩
  · rw [checkConversation_fetch_ok envEmptyFetch (201/2) (201/2)
      ⟨"D1", "U2"⟩ sEmpty [] hf']
    rfl
  · rw [hstate]
    simp only [h100]
    rfl

/-- C4 amended: for a conversation with no watermark entry, the first
sweep that observes it resolves the absent watermark to
formatTimestamp(now) - the current time truncated to whole seconds - and
records it in the state before fetching; under the Chat Source
precondition (fetched messages are newer than the passed marker) and
with all pre-existing messages older than the resolved marker, the
fetch is empty, zero notifications are produced, and the stored marker
ends at the truncated second wall-clock read, which is at least the
truncation of the sweep's start time (though it can undercut the exact
start instant by its fractional second, as the counterexample shows). -/
theorem first_contact_suppression (env : SlackEnv) (conv : Conversation)
    (s : LastChecked) (t_start now1 now2 : ℚ) (msgs : List Message)
    (hs : s conv.id = none)
    (hstart : t_start ≤ now1) (h12 : now1 ≤ now2)
    (hf : env.getConversationHistory conv.id (formatTimestamp now1) = .ok msgs)
    (hnew : ∀ x ∈ msgs, formatTimestamp now1 < x.timestamp)
    (hold : ∀ x ∈ msgs, x.timestamp < formatTimestamp now1) :
    resolveWatermark now1 conv.id s =
      (formatTimestamp now1, update s conv.id (formatTimestamp now1)) ∧
    msgs = [] ∧
    (checkConversation env now1 now2 conv s).notifs = [] ∧
    (checkConversation env now1 now2 conv s).state conv.id =
      some (formatTimestamp now2) ∧
    formatTimestamp t_start ≤ formatTimestamp now2 := by
  have hrw := resolveWatermark_none now1 conv.id s hs
  have hmsgs : msgs = [] := by
    cases msgs with
    | nil => rfl
    | cons x rest =>
      have h1 := hnew x (List.mem_cons_self x rest)
      have h2 := hold x (List.mem_cons_self x rest)
      exact absurd h1 (not_lt.mpr (le_of_lt h2))
  subst hmsgs
  have hf' : env.getConversationHistory conv.id
      (resolveWatermark now1 conv.id s).1 = .ok [] := by rw [hrw]; exact hf
  refine ⟨hrw, rfl, ?_, ?_, ?_⟩
  · rw [checkConversation_fetch_ok env now1 now2 conv s [] hf']
    rfl
  · rw [checkConversation_ok_apply_cid env now1 now2 conv s [] hf']
    rfl
  · have h := Int.floor_mono (le_trans hstart h12)
    simp only [formatTimestamp]
    exact_mod_cast h

/-- Witness for C4 amended: a fresh conversation observed at wall clock
100 with an empty source ends with marker 100 and no notifications. -/
theorem first_contact_suppression_witness :
    sEmpty "D1" = none ∧
    (checkConversation envEmptyFetch 100 100 ⟨"D1", "U2"⟩ sEmpty).notifs = [] ∧
    (checkConversation envEmptyFetch 100 100 ⟨"D1", "U2"⟩ sEmpty).state "D1" =
      some 100 := by
  have h := first_contact_suppression envEmptyFetch ⟨"D1", "U2"⟩ sEmpty 100 100 100
    [] (by rfl) le_rfl le_rfl (by rfl) (by simp) (by simp)
  exact ⟨by rfl, h.2.2.1, by rw [h.2.2.2.1]; rfl⟩

theorem checkConvsLoop_no_cancel (env : SlackEnv) (cancelled : ℕ → Bool)
    (nows : ℕ → ℚ × ℚ) (l : List Conversation) (i : ℕ) (s : LastChecked)
    (h : ∀ j, j < l.length → cancelled (i + j) = false) :
    (checkConvsLoop env cancelled nows l i s).cancelledEarly = false := by
  induction l generalizing i s with
  | nil => rfl
  | cons conv rest ih =>
    have hc : cancelled i = false := by
      have := h 0 (by simp)
      simpa using this
    simp only [checkConvsLoop, hc, Bool.false_eq_true, if_false]
    exact ih (i + 1) _ (fun j hj => by
      have heq : i + 1 + j = i + (j + 1) := by omega
      rw [heq]
      exact h (j + 1) (by simpa using Nat.succ_lt_succ hj))

theorem checkConvsLoop_cancel_at (env : SlackEnv) (cancelled : ℕ → Bool)
    (nows : ℕ → ℚ × ℚ) (l : List Conversation) (i k : ℕ) (s : LastChecked)
    (hk : k < l.length) (hc : cancelled (i + k) = true)
    (hprev : ∀ j, j < k → cancelled (i + j) = false) :
    checkConvsLoop env cancelled nows l i s =
      ⟨(checkConvsLoop env cancelled nows (l.take k) i s).state,
       (checkConvsLoop env cancelled nows (l.take k) i s).notifs, true⟩ := by
  induction k generalizing l i s with
  | zero =>
    cases l with
    | nil => simp at hk
    | cons conv rest =>
      have hc0 : cancelled i = true := by simpa using hc
      simp only [checkConvsLoop, hc0, if_true, List.take_zero]
  | succ k ih =>
    cases l with
    | nil => simp at hk
    | cons conv rest =>
      have hc0 : cancelled i = false := by
        have := hprev 0 (by omega)
        simpa using this
      have hc' : cancelled (i + 1 + k) = true := by
        have heq : i + 1 + k = i + (k + 1) := by omega
        rw [heq]; exact hc
      have hprev' : ∀ j, j < k → cancelled (i + 1 + j) = false := by
        intro j hj
        have heq : i + 1 + j = i + (j + 1) := by omega
        rw [heq]; exact hprev (j + 1) (by omega)
      have hk' : k < rest.length := by simpa using hk
      simp only [checkConvsLoop, hc0, Bool.false_eq_true, if_false, List.take_succ_cons]
      rw [ih rest (i + 1) _ hk' hc' hprev']

/-- C2 counterexample: a sweep stopped early by cancellation does not
persist the watermark map. With conversations D1 and D2 and
cancellation firing from index 1, checkAllConversations processes D1
(its marker advances to 200 and is kept in memory) and returns on
ctx.Done before D2, but stateStore.Save is never called: the source
returns nil from inside the loop, before the Save at the end of the
function. -/
theorem sweep_cancel_skips_save_cex :
    cancelAt1 1 = true ∧
    (checkAllConversations envC2 cancelAt1 nows200 true sC2).savedArg = none ∧
    (checkAllConversations envC2 cancelAt1 nows200 true sC2).state "D1" =
      some 200 ∧
    (checkAllConversations envC2 cancelAt1 nows200 true sC2).state "D2" =
      some 110 := by
  refine ⟨by rfl, by rfl, by rfl, by rfl⟩

/-- C2 amended: checkAllConversations persists the full in-memory
watermark map via the state store's Save exactly when the
per-conversation iteration ran to completion - regardless of how many
per-conversation fetch errors occurred (a failing conversation is
skipped, not fatal). When cancellation stops the iteration early, the
function returns immediately without calling Save; the in-memory
watermark advances of the already-processed conversations are kept, not
rolled back (the resulting map is exactly the map after processing the
first k conversations). -/
theorem sweep_persists (env : SlackEnv) (cancelled : ℕ → Bool) (nows : ℕ → ℚ × ℚ)
    (saveOk : Bool) (convs : List Conversation) (s : LastChecked)
    (hconvs : env.getDMConversations = .ok convs) :
    ((∀ j, j < convs.length → cancelled j = false) →
      (checkAllConversations env cancelled nows saveOk s).savedArg =
        some (checkAllConversations env cancelled nows saveOk s).state) ∧
    (∀ k, k < convs.length → cancelled k = true →
      (∀ j, j < k → cancelled j = false) →
      (checkAllConversations env cancelled nows saveOk s).savedArg = none ∧
      (checkAllConversations env cancelled nows saveOk s).state =
        (checkConvsLoop env cancelled nows (convs.take k) 0 s).state) := by
  constructor
  · intro hno
    have hdone : (checkConvsLoop env cancelled nows convs 0 s).cancelledEarly =
        false := by
      apply checkConvsLoop_no_cancel
      intro j hj
      simpa using hno j hj
    simp only [checkAllConversations, hconvs]
    rw [hdone]
    cases saveOk <;> simp
  · intro k hk hc hprev
    have hloop := checkConvsLoop_cancel_at env cancelled nows convs 0 k s hk
      (by simpa using hc) (fun j hj => by simpa using hprev j hj)
    simp only [checkAllConversations, hconvs]
    rw [hloop]
    simp

/-- Witness for C2 amended: with no cancellation, the sweep over D1 and
D2 calls Save with exactly the final in-memory map. -/
theorem sweep_persists_witness :
    envC2.getDMConversations = .ok [⟨"D1", "U2"⟩, ⟨"D2", "U3"⟩] ∧
    (checkAllConversations envC2 noCancel nows200 true sC2).savedArg =
      some (checkAllConversations envC2 noCancel nows200 true sC2).state := by
  exact ⟨rfl,
    (sweep_persists envC2 noCancel nows200 true [⟨"D1", "U2"⟩, ⟨"D2", "U3"⟩] sC2
      rfl).1 (fun j hj => rfl)⟩

theorem MarkerLe_refl (a : Option Ts) : MarkerLe a a := by
  cases a with
  | none => trivial
  | some x => exact le_refl x

theorem markerLe_callStep (C : String) (c : CallEnv) (s : LastChecked)
    (hpre : FetchPre c.env)
    (hclk : c.conv.id = C → ∀ m, s C = some m → m ≤ formatTimestamp c.now2) :
    MarkerLe (s C) (callStep c s C) := by
  by_cases hC : c.conv.id = C
  · subst hC
    cases hs : s c.conv.id with
    | none =>
      trivial
    | some m =>
      have hrw := resolveWatermark_some c.now1 c.conv.id s m hs
      cases hf : c.env.getConversationHistory c.conv.id m with
      | error e =>
        have hf' : c.env.getConversationHistory c.conv.id
            (resolveWatermark c.now1 c.conv.id s).1 = .error e := by
          rw [hrw]; exact hf
        unfold callStep
        rw [checkConversation_fetch_err c.env c.now1 c.now2 c.conv s e hf', hrw]
        show MarkerLe (some m) (s c.conv.id)
        rw [hs]
        exact le_refl m
      | ok msgs =>
        have hf' : c.env.getConversationHistory c.conv.id
            (resolveWatermark c.now1 c.conv.id s).1 = .ok msgs := by
          rw [hrw]; exact hf
        unfold callStep
        rw [checkConversation_ok_apply_cid c.env c.now1 c.now2 c.conv s msgs hf']
        cases hg : (passing c.env.getAuthenticatedUserID msgs.reverse).getLast? with
        | none => exact hclk rfl m hs
        | some last =>
          have hmem : last ∈ passing c.env.getAuthenticatedUserID msgs.reverse :=
            List.mem_of_mem_getLast? hg
          have hmsgs : last ∈ msgs := by
            have := (List.mem_filter.mp hmem).1
            exact List.mem_reverse.mp this
          exact le_of_lt (hpre c.conv.id m msgs hf last hmsgs)
  · unfold callStep
    rw [checkConversation_frame c.env c.now1 c.now2 c.conv s C
      (fun h => hC h.symm)]
    exact MarkerLe_refl _

/-- C3 counterexample: the stored marker for a conversation can decrease
across sweeps even though the Chat Source precondition holds at every
fetch. Conversation D1 starts at marker 90; sweep one fetches the
message with the fractional timestamp 100.5 (greater than 90, so the
precondition holds) and advances the marker to 100.5; sweep two at wall
clock 100.9 fetches nothing new, and the advance-to-now write stores
formatTimestamp(100.9) = 100 - time.Now().Unix() truncates to whole
seconds - which is strictly below 100.5. -/
theorem watermark_regress_cex :
    FetchPre envC3a ∧ FetchPre envEmptyFetch ∧
    runCalls (callsC3cex.take 1) sD1_90 "D1" = some (201/2) ∧
    runCalls callsC3cex sD1_90 "D1" = some 100 ∧
    ¬((201/2 : ℚ) ≤ 100) := by
  have hpre1 : FetchPre envC3a := by
    intro cid m msgs h x hx
    simp only [envC3a] at h
    by_cases hm : m = (90 : ℚ)
    · rw [if_pos hm] at h
      injection h with h2
      subst h2
      simp only [List.mem_singleton] at hx
      subst hx
      rw [hm]
      norm_num
    · rw [if_neg hm] at h
      injection h with h2
      subst h2
      cases hx
  have hpre2 : FetchPre envEmptyFetch := by
    intro cid m msgs h x hx
    injection h with h2
    subst h2
    cases hx
  have hstep1 : runCalls (callsC3cex.take 1) sD1_90 "D1" = some (201/2) := by rfl
  have hs1 : (callStep ⟨envC3a, 0, 0, ⟨"D1", "U2"⟩⟩ sD1_90) "D1" = some (201/2) := by
    rfl
  have hstep2 : runCalls callsC3cex sD1_90 "D1" = some 100 := by
    show (callStep ⟨envEmptyFetch, 1009/10, 1009/10, ⟨"D1", "U2"⟩⟩
      (callStep ⟨envC3a, 0, 0, ⟨"D1", "U2"⟩⟩ sD1_90)) "D1" = some 100
    set s1 := callStep ⟨envC3a, 0, 0, ⟨"D1", "U2"⟩⟩ sD1_90 with hs1def
    have hf' : envEmptyFetch.getConversationHistory "D1"
        (resolveWatermark (1009/10) "D1" s1).1 = .ok [] := by rfl
    unfold callStep
    rw [checkConversation_ok_apply_cid envEmptyFetch (1009/10) (1009/10)
      ⟨"D1", "U2"⟩ s1 [] hf']
    have : formatTimestamp (1009/10 : ℚ) = 100 := by
      norm_num [formatTimestamp]
    simp only [List.reverse_nil]
    rw [show (passing envEmptyFetch.getAuthenticatedUserID []).getLast? =
      (none : Option Message) from rfl]
    rw [this]
  exact ⟨hpre1, hpre2, hstep1, hstep2, by norm_num⟩

/-- C3 amended: watermark monotonicity holds under the Chat Source
precondition (fetched messages strictly newer than the passed marker)
together with a clock-sanity condition the claim leaves implicit and
that the counterexample shows is necessary: at every call that touches
the conversation, the truncated wall clock of the advance-to-now read is
at least the conversation's current marker. Under these conditions, for
every conversation C and every sequence of checkConversation calls
(interleaved with calls on other conversations, which never touch C's
entry - first conjunct), the stored marker for C is non-decreasing from
each prefix of the sequence to the next. -/
theorem watermark_monotone (C : String) (calls : List CallEnv) (s0 : LastChecked)
    (hpre : ∀ c ∈ calls, FetchPre c.env) (hclk : ClockOK C calls s0) :
    (∀ k, (∀ c ∈ calls, c.conv.id ≠ k) → runCalls calls s0 k = s0 k) ∧
    (∀ i, i < calls.length →
      MarkerLe (runCalls (calls.take i) s0 C)
        (runCalls (calls.take (i + 1)) s0 C)) := by
  induction calls generalizing s0 with
  | nil =>
    refine ⟨fun k _ => rfl, fun i hi => ?_⟩
    simp at hi
  | cons c cs ih =>
    have hpre0 : FetchPre c.env := hpre c (List.mem_cons_self c cs)
    have hprerest : ∀ x ∈ cs, FetchPre x.env :=
      fun x hx => hpre x (List.mem_cons_of_mem c hx)
    have hclk0 := hclk.1
    have hclkrest := hclk.2
    have ihr := ih (callStep c s0) hprerest hclkrest
    constructor
    · intro k hk
      have hnotc : c.conv.id ≠ k := hk c (List.mem_cons_self c cs)
      have hrest : ∀ x ∈ cs, x.conv.id ≠ k :=
        fun x hx => hk x (List.mem_cons_of_mem c hx)
      show runCalls cs (callStep c s0) k = s0 k
      rw [ihr.1 k hrest]
      unfold callStep
      exact checkConversation_frame c.env c.now1 c.now2 c.conv s0 k
        (fun h => hnotc h.symm)
    · intro i hi
      cases i with
      | zero =>
        show MarkerLe (s0 C) (runCalls [c] s0 C)
        show MarkerLe (s0 C) (callStep c s0 C)
        exact markerLe_callStep C c s0 hpre0 hclk0
      | succ j =>
        have hj : j < cs.length := by simpa using hi
        show MarkerLe (runCalls (c :: cs.take j) s0 C)
          (runCalls (c :: cs.take (j + 1)) s0 C)
        show MarkerLe (runCalls (cs.take j) (callStep c s0) C)
          (runCalls (cs.take (j + 1)) (callStep c s0) C)
        exact ihr.2 j hj

/-- Witness for C3 amended at the two-sweep sequence on D1 with sane
clocks (sweeps at 95 and 200): both consecutive prefix pairs are
non-decreasing, and concretely the marker goes 90, 100.5, 200. -/
theorem watermark_monotone_witness :
    MarkerLe (runCalls (callsC3wit.take 1) sD1_90 "D1")
      (runCalls (callsC3wit.take 2) sD1_90 "D1") ∧
    runCalls (callsC3wit.take 1) sD1_90 "D1" = some (201/2) ∧
    runCalls (callsC3wit.take 2) sD1_90 "D1" = some 200 := by
  have hpre : ∀ c ∈ callsC3wit, FetchPre c.env := by
    intro c hc
    simp only [callsC3wit, List.mem_cons, List.mem_singleton] at hc
    rcases hc with h | h | h
    · subst h
      intro cid m msgs hf x hx
      simp only [envC3a] at hf
      by_cases hm : m = (90 : ℚ)
      · rw [if_pos hm] at hf
        injection hf with h2
        subst h2
        simp only [List.mem_singleton] at hx
        subst hx
        rw [hm]
        norm_num
      · rw [if_neg hm] at hf
        injection hf with h2
        subst h2
        cases hx
    · subst h
      intro cid m msgs hf x hx
      injection hf with h2
      subst h2
      cases hx
    · cases h
  have hs1 : (callStep ⟨envC3a, 95, 95, ⟨"D1", "U2"⟩⟩ sD1_90) "D1" =
      some (201/2) := by rfl
  have hclk : ClockOK "D1" callsC3wit sD1_90 := by
    refine ⟨?_, ?_, trivial⟩
    · intro _ m hm
      have : some (90 : ℚ) = some m := hm
      injection this with h2
      subst h2
      norm_num [formatTimestamp]
    · intro _ m hm
      rw [hs1] at hm
      injection hm with h2
      subst h2
      norm_num [formatTimestamp]
  have h := watermark_monotone "D1" callsC3wit sD1_90 hpre hclk
  have hv1 : runCalls (callsC3wit.take 1) sD1_90 "D1" = some (201/2) := by rfl
  have hv2 : runCalls (callsC3wit.take 2) sD1_90 "D1" = some 200 := by
    show (callStep ⟨envEmptyFetch, 200, 200, ⟨"D1", "U2"⟩⟩
      (callStep ⟨envC3a, 95, 95, ⟨"D1", "U2"⟩⟩ sD1_90)) "D1" = some 200
    rfl
  exact ⟨h.2 1 (by norm_num [callsC3wit]), hv1, hv2⟩

theorem runTrace_head_start (P : ℚ) (d : ℕ → ℚ) (c : ℕ → Bool) (fuel n : ℕ)
    (t : ℚ) (x : ℚ × ℚ) (h : (runTrace P d c fuel n t).head? = some x) :
    x.1 = t := by
  cases fuel with
  | zero => simp [runTrace] at h
  | succ fuel =>
    by_cases hc : c n
    · simp [runTrace, hc] at h
    · simp only [runTrace, hc, Bool.false_eq_true, if_false, List.head?_cons,
        Option.some.injEq] at h
      rw [← h]

theorem runTrace_start_lb (P : ℚ) (d : ℕ → ℚ) (c : ℕ → Bool)
    (hP : 0 ≤ P) (hd : ∀ k, 0 ≤ d k) :
    ∀ fuel n t, ∀ x ∈ runTrace P d c fuel n t, t ≤ x.1 := by
  intro fuel
  induction fuel with
  | zero =>
    intro n t x hx
    simp [runTrace] at hx
  | succ fuel ih =>
    intro n t x hx
    by_cases hc : c n
    · simp [runTrace, hc] at hx
    · simp only [runTrace, hc, Bool.false_eq_true, if_false, List.mem_cons] at hx
      rcases hx with hx | hx
      · rw [hx]
      · have h1 := ih (n + 1) (t + d n + P) x hx
        have h2 : 0 ≤ d n := hd n
        linarith

/-- C1: in the Run loop of monitor.go the sweeps never overlap. Run is a
single sequential loop (sweep, then wait, then repeat), so the watermark
map is only ever touched by the one in-flight sweep; over the timing
trace it produces, consecutive sweeps satisfy start(i+1) = end(i) + P -
the poll interval is measured from the end of the previous sweep, not
from its start - and with a positive poll interval and non-negative
sweep durations the sweep intervals are pairwise disjoint: every later
sweep starts strictly after every earlier sweep has returned. -/
theorem run_no_overlap (P : ℚ) (d : ℕ → ℚ) (cancelled : ℕ → Bool) (fuel n : ℕ)
    (t : ℚ) (hP : 0 < P) (hd : ∀ k, 0 ≤ d k) :
    List.Chain' (fun a b : ℚ × ℚ => b.1 = a.2 + P)
      (runTrace P d cancelled fuel n t) ∧
    List.Pairwise (fun a b : ℚ × ℚ => a.2 < b.1)
      (runTrace P d cancelled fuel n t) ∧
    (∀ x ∈ runTrace P d cancelled fuel n t, x.1 ≤ x.2) := by
  induction fuel generalizing n t with
  | zero => exact ⟨List.chain'_nil, List.Pairwise.nil, by intro x hx; cases hx⟩
  | succ fuel ih =>
    by_cases hc : cancelled n
    · simp [runTrace, hc]
    · have ihr := ih (n + 1) (t + d n + P)
      simp only [runTrace, hc, Bool.false_eq_true, if_false]
      refine ⟨?_, ?_, ?_⟩
      · rw [List.chain'_cons']
        refine ⟨?_, ihr.1⟩
        intro b hb
        have := runTrace_head_start P d cancelled fuel (n + 1) (t + d n + P) b hb
        rw [this]
      · refine List.Pairwise.cons ?_ ihr.2.1
        intro y hy
        have h1 := runTrace_start_lb P d cancelled (le_of_lt hP) hd fuel (n + 1)
          (t + d n + P) y hy
        have : (t, t + d n).2 = t + d n := rfl
        rw [this]
        linarith
      · intro x hx
        rcases List.mem_cons.mp hx with hx | hx
        · rw [hx]
          have := hd n
          show t ≤ t + d n
          linarith
        · exact ihr.2.2 x hx

/-- Witness for C1: three sweeps of duration 1 with poll interval 2
starting at time 0 occupy intervals (0,1), (3,4), (6,7) - consecutive
starts exactly one interval after the previous end, no overlaps. -/
theorem run_no_overlap_witness :
    (0 : ℚ) < 2 ∧
    runTrace 2 dOne noCancel 3 0 0 = [(0, 1), (3, 4), (6, 7)] ∧
    List.Chain' (fun a b : ℚ × ℚ => b.1 = a.2 + 2)
      (runTrace 2 dOne noCancel 3 0 0) ∧
    List.Pairwise (fun a b : ℚ × ℚ => a.2 < b.1)
      (runTrace 2 dOne noCancel 3 0 0) := by
  have h := run_no_overlap 2 dOne noCancel 3 0 0 (by norm_num)
    (fun k => by norm_num [dOne])
  refine ⟨by norm_num, ?_, h.1, h.2.1⟩
  norm_num [runTrace, dOne, noCancel]

end SlackMonitor
